import Mathlib

/-!
Shallow embedding of `src/tqdm.h` (namespace `tqdm`): the `Chronometer`
stopwatch and the `ProgressBar` renderer.

Modelling conventions:
- `unsigned int` values are `ℕ` with arithmetic taken `% 2^32` exactly where
  the C++ expression can wrap (`current_step_ + elapsed_steps` in `update`,
  `total_steps_ - current_step_` in `fill`).
- `double` quantities (times in seconds, the progress fraction) are `ℚ`.
  Monotonic clock reads (`std::chrono::steady_clock::now()`) become explicit
  `now : ℚ` parameters of the operations that read the clock; a
  `Chronometer` is represented by its stored start instant.
- The `std::ostream*` sink is a non-owning reference, represented by an
  identifier `os_id : ℕ` (default `0` stands for `&std::cerr`); the stream
  itself is modelled by `OStreamState` (format flags, flushed output,
  unflushed buffer), and each repaint writes a structured `RenderLine`
  (the payload of the single `<<` of `bar.str()` in `update_display`).
- In `ℚ`, division by zero yields `0` where C++ doubles give inf or NaN
  (only reachable when `total_steps = 0`, excluded by hypotheses).
-/

namespace Tqdm

/-- Number of values of a C++ `unsigned int`: `2^32`. -/
def uint_size : ℕ := 2 ^ 32

/-- C++ unsigned subtraction `a - b` (wraparound, `b < uint_size`):
`(uint_size + a - b) % uint_size`. -/
def usub (a b : ℕ) : ℕ := (uint_size + a - b) % uint_size

/-- Model of `std::round`: round half away from zero (exact on the model values). -/
def cppRound (q : ℚ) : ℤ := if 0 ≤ q then ⌊q + 1 / 2⌋ else -⌊-q + 1 / 2⌋

/-- State of `tqdm::ProgressBar` (`src/tqdm.h`, lines 71-184).  The two
`Chronometer` members are represented by their start instants; `prefix_`
is renamed `label` (Lean reserves the word), `bar_size_`, `current_step_`,
`total_steps_` keep their names without the trailing underscore. -/
structure ProgressBar where
  chronometer_start : ℚ
  refresh_start : ℚ
  min_time_per_update : ℚ
  os_id : ℕ
  label : String
  bar_size : ℕ
  current_step : ℕ
  total_steps : ℕ

/-- Constructor `ProgressBar(unsigned int total_steps)`: defaults
`min_time_per_update_ = 0.1`, `bar_size_ = 40`, `current_step_ = 0`,
both chronometers started at construction time `now`, sink `&std::cerr`,
empty label. -/
def ProgressBar.init (total_steps : ℕ) (now : ℚ) : ProgressBar :=
  { chronometer_start := now
    refresh_start := now
    min_time_per_update := 1 / 10
    os_id := 0
    label := ""
    bar_size := 40
    current_step := 0
    total_steps := total_steps }

/-- The step-count update performed by `ProgressBar::update` (lines 89-93):
`if (current_step_ + elapsed_steps > total_steps_) current_step_ = total_steps_;
else current_step_ += elapsed_steps;` with the unsigned sum taken mod `2^32`. -/
def update_step (current total steps : ℕ) : ℕ :=
  if (current + steps) % uint_size > total then total
  else (current + steps) % uint_size

/-- Model of `time_since_refresh()` = `refresh_.peek()` at instant `now`. -/
def ProgressBar.time_since_refresh (pb : ProgressBar) (now : ℚ) : ℚ :=
  now - pb.refresh_start

/-- Model of `ProgressBar::update(unsigned elapsed_steps, bool force)` (lines 87-99),
called at clock instant `now`: updates the step count, then, when
`time_since_refresh() > min_time_per_update_ || force`, resets the refresh
timer and repaints.  Returns the new state and whether a repaint occurred. -/
def ProgressBar.update (pb : ProgressBar) (steps : ℕ) (force : Bool) (now : ℚ) :
    ProgressBar × Bool :=
  let c := update_step pb.current_step pb.total_steps steps
  if pb.time_since_refresh now > pb.min_time_per_update ∨ force = true then
    ({ pb with current_step := c, refresh_start := now }, true)
  else
    ({ pb with current_step := c }, false)

/-- The zero-argument overload `ProgressBar::update()` = `update(1)`. -/
def ProgressBar.update1 (pb : ProgressBar) (now : ℚ) : ProgressBar × Bool :=
  pb.update 1 false now

/-- Model of `ProgressBar::fill()` (lines 105-107):
`update(total_steps_ - current_step_, true)` with unsigned subtraction. -/
def ProgressBar.fill (pb : ProgressBar) (now : ℚ) : ProgressBar × Bool :=
  pb.update (usub pb.total_steps pb.current_step) true now

/-- Model of `ProgressBar::restart()` (lines 81-85): resets both chronometers to the
current instant. -/
def ProgressBar.restart (pb : ProgressBar) (now : ℚ) : ProgressBar :=
  { pb with chronometer_start := now, refresh_start := now }

/-- Setter `set_ostream`: replaces the sink reference. -/
def ProgressBar.set_ostream (pb : ProgressBar) (os : ℕ) : ProgressBar :=
  { pb with os_id := os }

/-- Setter `set_prefix`: replaces the label string (field `prefix_` in the source). -/
def ProgressBar.set_label (pb : ProgressBar) (s : String) : ProgressBar :=
  { pb with label := s }

/-- Setter `set_bar_size`: replaces the bar width. -/
def ProgressBar.set_bar_size (pb : ProgressBar) (size : ℕ) : ProgressBar :=
  { pb with bar_size := size }

/-- Setter `set_min_update_time`: replaces the refresh throttle interval. -/
def ProgressBar.set_min_update_time (pb : ProgressBar) (t : ℚ) : ProgressBar :=
  { pb with min_time_per_update := t }

/-- Model of `elapsed_time()` = `chronometer_.peek()` at instant `now`. -/
def ProgressBar.elapsed_time (pb : ProgressBar) (now : ℚ) : ℚ :=
  now - pb.chronometer_start

/-- The progress fraction `static_cast<double>(current_step_) / total_steps_`
computed in `update_display` (line 119). -/
def ProgressBar.progress (pb : ProgressBar) : ℚ :=
  (pb.current_step : ℚ) / (pb.total_steps : ℚ)

/-- Model of `ProgressBar::get_fill_value(int idx)` (lines 162-173): the Unicode code
point of the gradation glyph for `idx` (`default:` returns the full block
U+2588, also the glyph used for the filled cells). -/
def get_fill_value (idx : ℤ) : ℕ :=
  if idx = 0 then 0x258F
  else if idx = 1 then 0x258E
  else if idx = 2 then 0x258D
  else if idx = 3 then 0x258C
  else if idx = 4 then 0x258B
  else if idx = 5 then 0x258A
  else if idx = 6 then 0x2589
  else 0x2588

/-- The gradation index computed in `print_bar` (lines 149-151):
`min(int(p*100) - int(floor(p*10)*10), 6)`. -/
def last_fill_idx (p : ℚ) : ℤ :=
  min (⌊p * 100⌋ - ⌊p * 10⌋ * 10) 6

/-- The glyphs (Unicode code points) between the two `|` delimiters written
by `ProgressBar::print_bar` (lines 138-160): `num_filled` full blocks where
`num_filled = int(round(p * bar_size))` (non-negative at every call site, so
the int-to-unsigned conversion is the identity), then exactly one gradation
glyph, then `bar_size - (num_filled + 1)` spaces when `num_filled + 1` is
still below `bar_size`. -/
def bar_glyphs (bar_size : ℕ) (p : ℚ) : List ℕ :=
  let num_filled : ℕ := (cppRound (p * (bar_size : ℚ))).toNat
  List.replicate num_filled 0x2588 ++ [get_fill_value (last_fill_idx p)] ++
    (if num_filled + 1 < bar_size then
      List.replicate (bar_size - (num_filled + 1)) 0x20
    else [])

/-- The full output of `print_bar`: opening `|`, the interior, closing `|`. -/
def print_bar (bar_size : ℕ) (p : ℚ) : List ℕ :=
  [0x7C] ++ bar_glyphs bar_size p ++ [0x7C]

/-- The structured content of one repaint line, the payload of the single
`(*os_) << bar.str()` in `update_display` (lines 117-136): carriage return,
label, percentage (`progress * 100`, printed fixed with one decimal at width
5), the bar, elapsed seconds `t` and `eta = t / progress - t`. -/
structure RenderLine where
  label : String
  pct : ℚ
  bar : List ℕ
  elapsed : ℚ
  eta : ℚ

/-- The repaint line produced by `update_display` at clock instant `now`. -/
def ProgressBar.render_line (pb : ProgressBar) (now : ℚ) : RenderLine :=
  let t := pb.elapsed_time now
  { label := pb.label
    pct := pb.progress * 100
    bar := print_bar pb.bar_size pb.progress
    elapsed := t
    eta := t / pb.progress - t }

/-- State of the output stream `*os_`: format flags (`std::ios::fmtflags`),
already-flushed output, and the not-yet-flushed buffer. -/
structure OStreamState where
  flags : ℕ
  flushed : List RenderLine
  buffered : List RenderLine

/-- Stream write `(*os_) << line`: append to the stream buffer. -/
def osWrite (os : OStreamState) (line : RenderLine) : OStreamState :=
  { os with buffered := os.buffered ++ [line] }

/-- Stream flush `<< std::flush`: move everything buffered into the flushed output. -/
def osFlush (os : OStreamState) : OStreamState :=
  { os with flushed := os.flushed ++ os.buffered, buffered := [] }

/-- Stream operation `os_->flags(f)`: set the format flags. -/
def osSetFlags (os : OStreamState) (f : ℕ) : OStreamState :=
  { os with flags := f }

/-- Model of `ProgressBar::update_display()` (lines 117-136) acting on the stream:
save `os_->flags()`, build the line in a local `stringstream` (which leaves
the stream formatting untouched), write it, flush, restore the saved flags. -/
def ProgressBar.update_display (pb : ProgressBar) (now : ℚ) (os : OStreamState) :
    OStreamState :=
  let saved := os.flags
  osSetFlags (osFlush (osWrite os (pb.render_line now))) saved

/-- Model of `ProgressBar::update` together with its effect on the output stream. -/
def ProgressBar.update_os (pb : ProgressBar) (steps : ℕ) (force : Bool)
    (now : ℚ) (os : OStreamState) : ProgressBar × OStreamState :=
  let r := pb.update steps force now
  (r.1, if r.2 then r.1.update_display now os else os)

/-- A sequence of `update` calls: each list entry is
(steps, force, clock instant). -/
def run_advances (pb : ProgressBar) : List (ℕ × Bool × ℚ) → ProgressBar
  | [] => pb
  | (s, f, t) :: rest => run_advances (pb.update s f t).1 rest

/-- The step count reached from a fresh counter by a list of step requests
(only the counter arithmetic of `update`, which ignores time and force). -/
def steps_after (total : ℕ) (l : List ℕ) : ℕ :=
  l.foldl (fun c s => update_step c total s) 0

/-- Modelled from the spec (claim C5 wording only, for comparison with the
code formula): the largest multiple of 10 not exceeding `x`. -/
def largest_mult_ten (x : ℚ) : ℤ := 10 * ⌊x / 10⌋

end Tqdm

namespace Tqdm

example : update_step 0 10 5 = 5 := by decide
example : update_step 5 10 4294967295 = 4 := by decide
example : update_step 5 10 7 = 10 := by decide
example : last_fill_idx (1 : ℚ) = 0 := by norm_num [last_fill_idx]
example : last_fill_idx ((7 : ℚ) / 10) = 0 := by norm_num [last_fill_idx]
example : last_fill_idx ((69 : ℚ) / 100) = 6 := by norm_num [last_fill_idx]
example : (bar_glyphs 10 1).length = 11 := by
  norm_num [bar_glyphs, cppRound, last_fill_idx, get_fill_value]
  decide
example : bar_glyphs 4 ((1 : ℚ) / 2) =
    [0x2588, 0x2588, 0x258F, 0x20] := by
  norm_num [bar_glyphs, cppRound, last_fill_idx, get_fill_value,
    List.replicate]
  decide

/-! Helper lemmas shared by the claim theorems. -/

lemma update_fst_current (pb : ProgressBar) (s : ℕ) (f : Bool) (now : ℚ) :
    (pb.update s f now).1.current_step =
      update_step pb.current_step pb.total_steps s := by
  unfold ProgressBar.update
  split <;> rfl

lemma update_fst_total (pb : ProgressBar) (s : ℕ) (f : Bool) (now : ℚ) :
    (pb.update s f now).1.total_steps = pb.total_steps := by
  unfold ProgressBar.update
  split <;> rfl

lemma update_step_le (c t s : ℕ) : update_step c t s ≤ t := by
  unfold update_step
  split <;> omega

lemma update_step_no_overflow (c t s : ℕ) (h : c + s < uint_size) :
    update_step c t s = min (c + s) t := by
  unfold update_step
  rw [Nat.mod_eq_of_lt h]
  split <;> omega

lemma usub_of_le (a b : ℕ) (hba : b ≤ a) (ha : a < uint_size) :
    usub a b = a - b := by
  unfold usub at *
  unfold uint_size at *
  omega

lemma update_forced_snd (pb : ProgressBar) (s : ℕ) (now : ℚ) :
    (pb.update s true now).2 = true := by
  unfold ProgressBar.update
  rw [if_pos (Or.inr rfl)]

/-- C7: `restart()` resets both stopwatches to the current instant (so
`elapsed_time()` and `time_since_refresh()` read zero immediately after)
and changes neither `current_step` nor `total_steps` nor any configuration
field. -/
theorem restart_resets_clocks (pb : ProgressBar) (now : ℚ) :
    (pb.restart now).elapsed_time now = 0 ∧
    (pb.restart now).time_since_refresh now = 0 ∧
    (pb.restart now).chronometer_start = now ∧
    (pb.restart now).refresh_start = now ∧
    (pb.restart now).current_step = pb.current_step ∧
    (pb.restart now).total_steps = pb.total_steps ∧
    (pb.restart now).bar_size = pb.bar_size ∧
    (pb.restart now).label = pb.label ∧
    (pb.restart now).min_time_per_update = pb.min_time_per_update ∧
    (pb.restart now).os_id = pb.os_id := by
  refine ⟨?_, ?_, rfl, rfl, rfl, rfl, rfl, rfl, rfl, rfl⟩ <;>
    simp [ProgressBar.restart, ProgressBar.elapsed_time,
      ProgressBar.time_since_refresh]

/-- C8: every repaint leaves nothing buffered (the flush immediately follows
the single write), appends exactly the repaint line to the flushed output,
and restores the format flags that the stream had before the repaint. -/
theorem repaint_flushes_and_restores_flags (pb : ProgressBar) (now : ℚ)
    (os : OStreamState) :
    (pb.update_display now os).flags = os.flags ∧
    (pb.update_display now os).buffered = [] ∧
    (pb.update_display now os).flushed =
      os.flushed ++ os.buffered ++ [pb.render_line now] := by
  refine ⟨rfl, rfl, ?_⟩
  simp [ProgressBar.update_display, osWrite, osFlush, osSetFlags]

/-- C9: `update(0, force)` leaves `current_step` unchanged on every state
satisfying the representation invariant, repaints exactly when the throttle
threshold is exceeded or `force` holds, and in particular `update(0, true)`
always repaints. -/
theorem advance_zero_steps (pb : ProgressBar) (force : Bool) (now : ℚ)
    (h1 : pb.current_step ≤ pb.total_steps)
    (h2 : pb.total_steps < uint_size) :
    (pb.update 0 force now).1.current_step = pb.current_step ∧
    ((pb.update 0 force now).2 = true ↔
      (pb.time_since_refresh now > pb.min_time_per_update ∨ force = true)) ∧
    (pb.update 0 true now).2 = true := by
  refine ⟨?_, ?_, update_forced_snd pb 0 now⟩
  · rw [update_fst_current]
    unfold update_step
    rw [Nat.mod_eq_of_lt (by omega)]
    split <;> omega
  · unfold ProgressBar.update
    split
    · simp_all
    · simp_all

/-- Witness for C9 at a concrete state: a fresh renderer with 5 total steps,
`advance(0, false)` at construction time. -/
theorem advance_zero_steps_witness :
    ((ProgressBar.init 5 0).update 0 false 0).1.current_step =
      (ProgressBar.init 5 0).current_step :=
  (advance_zero_steps (ProgressBar.init 5 0) false 0 (by decide)
    (by decide)).1

/-- C10: `update` never changes `total_steps`, `bar_size`, the label,
`min_time_per_update`, the sink reference, or the total-elapsed stopwatch;
only `current_step` and the refresh stopwatch may change. -/
theorem advance_frame_condition (pb : ProgressBar) (steps : ℕ) (force : Bool)
    (now : ℚ) :
    (pb.update steps force now).1.total_steps = pb.total_steps ∧
    (pb.update steps force now).1.bar_size = pb.bar_size ∧
    (pb.update steps force now).1.label = pb.label ∧
    (pb.update steps force now).1.min_time_per_update =
      pb.min_time_per_update ∧
    (pb.update steps force now).1.os_id = pb.os_id ∧
    (pb.update steps force now).1.chronometer_start =
      pb.chronometer_start := by
  unfold ProgressBar.update
  split <;> exact ⟨rfl, rfl, rfl, rfl, rfl, rfl⟩

lemma update_fst_bar_size (pb : ProgressBar) (s : ℕ) (f : Bool) (now : ℚ) :
    (pb.update s f now).1.bar_size = pb.bar_size := by
  unfold ProgressBar.update
  split <;> rfl

lemma update_throttled (pb : ProgressBar) (s : ℕ) (now : ℚ)
    (h : pb.time_since_refresh now ≤ pb.min_time_per_update) :
    (pb.update s false now).2 = false ∧
    (pb.update s false now).1.refresh_start = pb.refresh_start ∧
    (pb.update s false now).1.min_time_per_update =
      pb.min_time_per_update := by
  unfold ProgressBar.update
  rw [if_neg]
  · exact ⟨rfl, rfl, rfl⟩
  · rintro (hgt | hf)
    · exact absurd h (not_le.mpr hgt)
    · simp at hf

/-- C2 counterexample: from the reachable state `current_step = 5`,
`total_steps = 10`, the call `update(4294967295)` requests far more steps
than remain, yet the unsigned sum wraps to `4`, which passes the guard, so
`current_step` becomes `4`, not `total_steps = 10`. -/
theorem clamp_counterexample :
    ((ProgressBar.init 10 0).update 5 false 0).1.current_step = 5 ∧
    ((ProgressBar.init 10 0).update 5 false 0).1.total_steps = 10 ∧
    (((ProgressBar.init 10 0).update 5 false 0).1.update 4294967295 false
        0).1.current_step = 4 ∧
    (4 : ℕ) ≠ 10 := by
  simp only [update_fst_current, update_fst_total]
  refine ⟨?_, rfl, ?_, by decide⟩ <;> decide

/-- C2 (amended): `current_step ≤ total_steps` holds unconditionally after
construction and after every `update` (hence after `fill`), and is preserved
by `restart` and every setter; an `update` whose requested steps would
exceed `total_steps` clamps `current_step` to exactly `total_steps`
provided the unsigned sum `current_step + steps` does not wrap around
(`current_step + steps < 2^32`). -/
theorem current_le_total_invariant :
    (∀ (total : ℕ) (now : ℚ), (ProgressBar.init total now).current_step ≤
        (ProgressBar.init total now).total_steps) ∧
    (∀ (pb : ProgressBar) (s : ℕ) (f : Bool) (now : ℚ),
        (pb.update s f now).1.current_step ≤
          (pb.update s f now).1.total_steps) ∧
    (∀ (pb : ProgressBar) (now : ℚ),
        (pb.fill now).1.current_step ≤ (pb.fill now).1.total_steps) ∧
    (∀ (pb : ProgressBar) (now : ℚ),
        (pb.restart now).current_step = pb.current_step ∧
        (pb.restart now).total_steps = pb.total_steps) ∧
    (∀ (pb : ProgressBar) (os size : ℕ) (lbl : String) (t : ℚ),
        (pb.set_ostream os).current_step = pb.current_step ∧
        (pb.set_ostream os).total_steps = pb.total_steps ∧
        (pb.set_label lbl).current_step = pb.current_step ∧
        (pb.set_label lbl).total_steps = pb.total_steps ∧
        (pb.set_bar_size size).current_step = pb.current_step ∧
        (pb.set_bar_size size).total_steps = pb.total_steps ∧
        (pb.set_min_update_time t).current_step = pb.current_step ∧
        (pb.set_min_update_time t).total_steps = pb.total_steps) ∧
    (∀ (pb : ProgressBar) (s : ℕ) (f : Bool) (now : ℚ),
        pb.current_step ≤ pb.total_steps →
        pb.total_steps < pb.current_step + s →
        pb.current_step + s < uint_size →
        (pb.update s f now).1.current_step = pb.total_steps) := by
  refine ⟨fun total now => Nat.zero_le _, fun pb s f now => ?_,
    fun pb now => ?_, fun pb now => ⟨rfl, rfl⟩,
    fun pb os size lbl t => ⟨rfl, rfl, rfl, rfl, rfl, rfl, rfl, rfl⟩,
    fun pb s f now h1 h2 h3 => ?_⟩
  · rw [update_fst_current, update_fst_total]
    exact update_step_le _ _ _
  · unfold ProgressBar.fill
    rw [update_fst_current, update_fst_total]
    exact update_step_le _ _ _
  · rw [update_fst_current, update_step_no_overflow _ _ _ h3]
    omega

/-- Witness for C2 at a concrete state: a fresh renderer with 10 total
steps, one `advance(15)` clamps to 10. -/
theorem current_le_total_invariant_witness :
    ((ProgressBar.init 10 0).update 15 false 0).1.current_step =
      (ProgressBar.init 10 0).total_steps :=
  current_le_total_invariant.2.2.2.2.2 (ProgressBar.init 10 0) 15 false 0
    (by decide) (by decide) (by decide)

/-- C3 counterexample: `total_steps = 10`, two calls of
`advance(4294967295)`.  The first clamps to 10; in the second the unsigned
sum `10 + 4294967295` wraps to `9 ≤ 10`, so `current_step` drops to `9`,
while `min(S, 10) = 10` whether `S` is the exact sum `2·(2^32 - 1)` or that
sum reduced mod `2^32`. -/
theorem advance_sum_counterexample :
    (run_advances (ProgressBar.init 10 0)
        [(4294967295, false, 0), (4294967295, false, 0)]).current_step = 9 ∧
    min (4294967295 + 4294967295) 10 = 10 ∧
    min ((4294967295 + 4294967295) % uint_size) 10 = 10 ∧
    (9 : ℕ) ≠ 10 := by
  refine ⟨?_, by decide, by decide, by decide⟩
  simp only [run_advances, update_fst_current, update_fst_total]
  decide

lemma run_advances_current (calls : List (ℕ × Bool × ℚ)) :
    ∀ pb : ProgressBar, pb.current_step ≤ pb.total_steps →
    pb.current_step + (calls.map fun c => c.1).sum < uint_size →
    (run_advances pb calls).current_step =
      min (pb.current_step + (calls.map fun c => c.1).sum) pb.total_steps ∧
    (run_advances pb calls).total_steps = pb.total_steps := by
  induction calls with
  | nil =>
    intro pb h1 h2
    simp only [run_advances, List.map_nil, List.sum_nil, Nat.add_zero]
    exact ⟨by omega, by trivial⟩
  | cons head rest ih =>
    intro pb h1 h2
    obtain ⟨s, f, t⟩ := head
    simp only [run_advances, List.map_cons, List.sum_cons] at h2 ⊢
    have hc := update_fst_current pb s f t
    have ht := update_fst_total pb s f t
    have hno : update_step pb.current_step pb.total_steps s =
        min (pb.current_step + s) pb.total_steps :=
      update_step_no_overflow _ _ _ (by omega)
    have h1' : (pb.update s f t).1.current_step ≤
        (pb.update s f t).1.total_steps := by
      rw [hc, ht]
      exact update_step_le _ _ _
    have h2' : (pb.update s f t).1.current_step +
        (rest.map fun c => c.1).sum < uint_size := by
      rw [hc, hno]
      omega
    obtain ⟨ihc, iht⟩ := ih (pb.update s f t).1 h1' h2'
    rw [ihc, iht, hc, ht, hno]
    exact ⟨by omega, rfl⟩

/-- C3 (amended): for any sequence of `advance` calls on a fresh renderer
whose requested step counts sum to `S`, if `S < 2^32` (so no unsigned
wraparound can occur in any call), then afterwards
`current_step = min(S, total_steps)`, independently of how `S` is split
across the calls and of their `force` flags and call instants. -/
theorem advance_sum_distribution (total : ℕ) (now : ℚ)
    (calls : List (ℕ × Bool × ℚ))
    (h : (calls.map fun c => c.1).sum < uint_size) :
    (run_advances (ProgressBar.init total now) calls).current_step =
      min (calls.map fun c => c.1).sum total := by
  have hr := run_advances_current calls (ProgressBar.init total now)
    (Nat.zero_le _) (by simpa [ProgressBar.init] using h)
  simpa [ProgressBar.init] using hr.1

/-- Witness for C3: `total_steps = 10`, a single `advance(4)`. -/
theorem advance_sum_distribution_witness :
    (run_advances (ProgressBar.init 10 0)
        [((4 : ℕ), false, (0 : ℚ))]).current_step =
      min ([((4 : ℕ), false, (0 : ℚ))].map fun c => c.1).sum 10 :=
  advance_sum_distribution 10 0 [(4, false, 0)] (by decide)

/-- C6 counterexample: with the default `min_time_per_update = 0.1`, two
back-to-back `advance(1)` calls at the construction instant produce zero
repaints, not one: the first call is also suppressed, because the refresh
stopwatch starts at construction and `0 > 0.1` is false. -/
theorem throttle_pair_counterexample :
    (ProgressBar.init 100 0).min_time_per_update = 1 / 10 ∧
    ((ProgressBar.init 100 0).update 1 false 0).2 = false ∧
    (((ProgressBar.init 100 0).update 1 false 0).1.update 1 false 0).2 =
      false := by
  have e1 : (ProgressBar.init 100 0).time_since_refresh 0 ≤
      (ProgressBar.init 100 0).min_time_per_update := by
    simp [ProgressBar.init, ProgressBar.time_since_refresh]
  obtain ⟨b1, r1, m1⟩ := update_throttled (ProgressBar.init 100 0) 1 0 e1
  have e2 : ((ProgressBar.init 100 0).update 1 false 0).1.time_since_refresh
      0 ≤ ((ProgressBar.init 100 0).update 1 false 0).1.min_time_per_update := by
    unfold ProgressBar.time_since_refresh
    rw [r1, m1]
    simp [ProgressBar.init]
  obtain ⟨b2, _, _⟩ := update_throttled _ 1 0 e2
  exact ⟨rfl, b1, b2⟩

/-- C6 (amended): with the default throttle interval 0.1s, two back-to-back
`advance(1)` calls both made within 0.1s of construction produce no repaint
at all (both are suppressed by the throttle); passing `force = true` makes
both calls repaint. -/
theorem throttle_suppresses_back_to_back (total : ℕ) (t0 t1 t2 : ℚ)
    (h1 : t1 - t0 ≤ 1 / 10) (h2 : t2 - t0 ≤ 1 / 10) :
    ((ProgressBar.init total t0).update 1 false t1).2 = false ∧
    (((ProgressBar.init total t0).update 1 false t1).1.update 1 false
        t2).2 = false ∧
    ((ProgressBar.init total t0).update 1 true t1).2 = true ∧
    (((ProgressBar.init total t0).update 1 true t1).1.update 1 true t2).2 =
      true := by
  have e1 : (ProgressBar.init total t0).time_since_refresh t1 ≤
      (ProgressBar.init total t0).min_time_per_update := by
    simp [ProgressBar.init, ProgressBar.time_since_refresh]
    linarith
  obtain ⟨b1, r1, m1⟩ := update_throttled (ProgressBar.init total t0) 1 t1 e1
  have e2 : ((ProgressBar.init total t0).update 1 false t1).1.time_since_refresh
      t2 ≤ ((ProgressBar.init total t0).update 1 false t1).1.min_time_per_update := by
    unfold ProgressBar.time_since_refresh
    rw [r1, m1]
    simp [ProgressBar.init]
    linarith
  obtain ⟨b2, _, _⟩ := update_throttled _ 1 t2 e2
  exact ⟨b1, b2, update_forced_snd _ _ _, update_forced_snd _ _ _⟩

/-- Witness for C6 at concrete instants: both calls at the construction
instant itself. -/
theorem throttle_suppresses_back_to_back_witness :
    ((ProgressBar.init 100 0).update 1 false 0).2 = false ∧
    ((ProgressBar.init 100 0).update 1 true 0).2 = true :=
  ⟨(throttle_suppresses_back_to_back 100 0 0 0 (by norm_num)
      (by norm_num)).1,
   (throttle_suppresses_back_to_back 100 0 0 0 (by norm_num)
      (by norm_num)).2.2.1⟩

lemma fill_total (pb : ProgressBar) (now : ℚ) :
    (pb.fill now).1.total_steps = pb.total_steps := by
  unfold ProgressBar.fill
  rw [update_fst_total]

lemma fill_current (pb : ProgressBar) (now : ℚ)
    (h1 : pb.current_step ≤ pb.total_steps)
    (h2 : pb.total_steps < uint_size) :
    (pb.fill now).1.current_step = pb.total_steps := by
  unfold ProgressBar.fill
  rw [update_fst_current, usub_of_le _ _ h1 h2]
  unfold update_step
  rw [Nat.mod_eq_of_lt (by omega)]
  split <;> omega

lemma fill_snd (pb : ProgressBar) (now : ℚ) : (pb.fill now).2 = true := by
  unfold ProgressBar.fill
  exact update_forced_snd _ _ _

/-- C4: `fill()` (the spec's `complete()`) always lands `current_step` on
`total_steps` and always repaints (force bypasses the throttle); a second
immediate `fill()` leaves `current_step = total_steps` and repaints again,
and both repaint lines carry percentage `progress * 100 = 100`. -/
theorem complete_forces_full_repaint (pb : ProgressBar) (now now2 : ℚ)
    (h1 : pb.current_step ≤ pb.total_steps)
    (h2 : pb.total_steps < uint_size)
    (h3 : 0 < pb.total_steps) :
    (pb.fill now).1.current_step = pb.total_steps ∧
    (pb.fill now).2 = true ∧
    ((pb.fill now).1.render_line now).pct = 100 ∧
    ((pb.fill now).1.fill now2).1.current_step = pb.total_steps ∧
    ((pb.fill now).1.fill now2).2 = true ∧
    (((pb.fill now).1.fill now2).1.render_line now2).pct = 100 := by
  have hc1 := fill_current pb now h1 h2
  have ht1 := fill_total pb now
  have hp1 : (pb.fill now).1.progress = 1 := by
    unfold ProgressBar.progress
    rw [hc1, ht1]
    exact div_self (Nat.cast_ne_zero.mpr (by omega))
  have hc2 := fill_current (pb.fill now).1 now2 (by rw [hc1, ht1])
    (by rw [ht1]; exact h2)
  have ht2 := fill_total (pb.fill now).1 now2
  have hp2 : ((pb.fill now).1.fill now2).1.progress = 1 := by
    unfold ProgressBar.progress
    rw [hc2, ht1, ht2, ht1]
    exact div_self (Nat.cast_ne_zero.mpr (by omega))
  refine ⟨hc1, fill_snd pb now, ?_, by rw [hc2, ht1], fill_snd _ now2, ?_⟩
  · show (pb.fill now).1.progress * 100 = 100
    rw [hp1]
    norm_num
  · show ((pb.fill now).1.fill now2).1.progress * 100 = 100
    rw [hp2]
    norm_num

/-- Witness for C4: a renderer with 4 total steps, both `fill()` calls at
the construction instant. -/
theorem complete_forces_full_repaint_witness :
    ((ProgressBar.init 4 0).fill 0).1.current_step =
      (ProgressBar.init 4 0).total_steps ∧
    (((ProgressBar.init 4 0).fill 0).1.render_line 0).pct = 100 :=
  ⟨(complete_forces_full_repaint (ProgressBar.init 4 0) 0 0 (by decide)
      (by decide) (by decide)).1,
   (complete_forces_full_repaint (ProgressBar.init 4 0) 0 0 (by decide)
      (by decide) (by decide)).2.2.1⟩

lemma get_fill_value_ne_full (i : ℤ) (h0 : 0 ≤ i) (h6 : i ≤ 6) :
    get_fill_value i ≠ 0x2588 := by
  interval_cases i <;> decide

lemma floor_bucket_bounds (p : ℚ) :
    0 ≤ ⌊p * 100⌋ - ⌊p * 10⌋ * 10 ∧ ⌊p * 100⌋ - ⌊p * 10⌋ * 10 ≤ 9 := by
  constructor
  · have h1 : ((⌊p * 10⌋ * 10 : ℤ) : ℚ) ≤ p * 100 := by
      push_cast
      have hf := Int.floor_le (p * 10)
      linarith
    have := Int.le_floor.mpr h1
    omega
  · have h2 : p * 100 < ((⌊p * 10⌋ * 10 + 10 : ℤ) : ℚ) := by
      push_cast
      have hf := Int.lt_floor_add_one (p * 10)
      linarith
    have := Int.floor_lt.mpr h2
    omega

lemma largest_mult_ten_eq (p : ℚ) :
    largest_mult_ten (p * 100) = ⌊p * 10⌋ * 10 := by
  unfold largest_mult_ten
  rw [show p * 100 / 10 = p * 10 by ring, mul_comm]

/-- C5: the gradation index used by `print_bar` equals
`min(trunc(progress*100) - (largest multiple of 10 not exceeding
progress*100), 6)`, always lies in `0..6`, is never `7`, and therefore
never selects the full-block glyph. -/
theorem gradation_index_spec (p : ℚ) (h : 0 ≤ p) :
    last_fill_idx p = min (⌊p * 100⌋ - largest_mult_ten (p * 100)) 6 ∧
    0 ≤ last_fill_idx p ∧ last_fill_idx p ≤ 6 ∧
    last_fill_idx p ≠ 7 ∧
    get_fill_value (last_fill_idx p) ≠ 0x2588 := by
  obtain ⟨hb0, hb9⟩ := floor_bucket_bounds p
  refine ⟨by unfold last_fill_idx; rw [largest_mult_ten_eq], ?_, ?_, ?_, ?_⟩
  · unfold last_fill_idx
    omega
  · unfold last_fill_idx
    omega
  · unfold last_fill_idx
    omega
  · exact get_fill_value_ne_full _ (by unfold last_fill_idx; omega)
      (by unfold last_fill_idx; omega)

/-- Witness for C5 at `progress = 7/10`, where the raw bucket value 0 is
below the clamp. -/
theorem gradation_index_spec_witness :
    0 ≤ last_fill_idx ((7 : ℚ) / 10) ∧ last_fill_idx ((7 : ℚ) / 10) ≤ 6 :=
  ⟨(gradation_index_spec ((7 : ℚ) / 10) (by norm_num)).2.1,
   (gradation_index_spec ((7 : ℚ) / 10) (by norm_num)).2.2.1⟩

/-- C1 counterexample: `total_steps = 4`, `bar_width = 10`, at
`progress = 1` (after `fill()`).  The bar interior is ten full blocks
followed by the gradation glyph of index 0 (U+258F, the thinnest): 11
glyphs, not a fully filled 10-glyph bar, and the gradation is not the full
block. -/
theorem bar_full_progress_counterexample :
    (((ProgressBar.init 4 0).set_bar_size 10).fill 0).1.progress = 1 ∧
    (((ProgressBar.init 4 0).set_bar_size 10).fill 0).1.bar_size = 10 ∧
    bar_glyphs 10 1 = List.replicate 10 0x2588 ++ [0x258F] ∧
    (bar_glyphs 10 1).length = 11 ∧
    (11 : ℕ) ≠ 10 ∧ (0x258F : ℕ) ≠ 0x2588 := by
  have hbar : bar_glyphs 10 1 = List.replicate 10 0x2588 ++ [0x258F] := by
    norm_num [bar_glyphs, cppRound, last_fill_idx, get_fill_value]
    decide
  refine ⟨?_, ?_, hbar, by rw [hbar]; decide, by decide, by decide⟩
  · unfold ProgressBar.fill ProgressBar.progress
    rw [update_fst_current, update_fst_total]
    norm_num [ProgressBar.init, ProgressBar.set_bar_size, usub, uint_size,
      update_step]
  · unfold ProgressBar.fill
    rw [update_fst_bar_size]
    rfl

/-- C1 (amended): away from the final cell
(`round(progress * bar_width) < bar_width`), the bar interior is
`num_filled` full blocks, exactly one gradation glyph, and padding spaces,
with `num_filled + 1 + padding = bar_width`; at `progress = 1` the interior
is `bar_width` full blocks followed by one index-0 gradation glyph
(U+258F), hence `bar_width + 1` glyphs and no padding. -/
theorem bar_width_decomposition :
    (∀ (W : ℕ) (p : ℚ), 0 < p → p < 1 → (cppRound (p * W)).toNat < W →
        bar_glyphs W p =
          List.replicate (cppRound (p * W)).toNat 0x2588 ++
            [get_fill_value (last_fill_idx p)] ++
            List.replicate (W - ((cppRound (p * W)).toNat + 1)) 0x20 ∧
        (cppRound (p * W)).toNat + 1 +
          (W - ((cppRound (p * W)).toNat + 1)) = W) ∧
    (∀ W : ℕ, bar_glyphs W 1 =
        List.replicate W 0x2588 ++ [get_fill_value (last_fill_idx 1)] ∧
        get_fill_value (last_fill_idx 1) = 0x258F ∧
        (0x258F : ℕ) ≠ 0x2588) := by
  constructor
  · intro W p hp0 hp1 hn
    have hgoal : bar_glyphs W p =
        List.replicate (cppRound (p * W)).toNat 0x2588 ++
          [get_fill_value (last_fill_idx p)] ++
          (if (cppRound (p * W)).toNat + 1 < W then
            List.replicate (W - ((cppRound (p * W)).toNat + 1)) 0x20
          else []) := rfl
    by_cases hlt : (cppRound (p * W)).toNat + 1 < W
    · rw [hgoal, if_pos hlt]
      exact ⟨rfl, by omega⟩
    · have hEq : (cppRound (p * W)).toNat + 1 = W := by omega
      rw [hgoal, if_neg hlt]
      refine ⟨?_, by omega⟩
      rw [show W - ((cppRound (p * W)).toNat + 1) = 0 by omega]
      simp
  · intro W
    have hround : cppRound ((1 : ℚ) * W) = (W : ℤ) := by
      unfold cppRound
      rw [if_pos (by positivity), one_mul,
        show ((W : ℚ) + 1 / 2) = ((W : ℤ) : ℚ) + 1 / 2 by push_cast; ring,
        Int.floor_int_add]
      norm_num
    have hidx : last_fill_idx (1 : ℚ) = 0 := by norm_num [last_fill_idx]
    have hgoal : bar_glyphs W 1 =
        List.replicate (cppRound ((1 : ℚ) * W)).toNat 0x2588 ++
          [get_fill_value (last_fill_idx 1)] ++
          (if (cppRound ((1 : ℚ) * W)).toNat + 1 < W then
            List.replicate (W - ((cppRound ((1 : ℚ) * W)).toNat + 1)) 0x20
          else []) := rfl
    rw [hgoal, hround]
    refine ⟨?_, by rw [hidx]; rfl, by decide⟩
    rw [Int.toNat_natCast, if_neg (by omega)]
    simp

/-- Witness for C1 at `bar_width = 4`, `progress = 1/2`: two full blocks,
one gradation glyph, one space. -/
theorem bar_width_decomposition_witness :
    bar_glyphs 4 ((1 : ℚ) / 2) =
      List.replicate (cppRound ((1 : ℚ) / 2 * ((4 : ℕ) : ℚ))).toNat
          0x2588 ++
        [get_fill_value (last_fill_idx ((1 : ℚ) / 2))] ++
        List.replicate
          (4 - ((cppRound ((1 : ℚ) / 2 * ((4 : ℕ) : ℚ))).toNat + 1))
          0x20 ∧
    (cppRound ((1 : ℚ) / 2 * ((4 : ℕ) : ℚ))).toNat + 1 +
      (4 - ((cppRound ((1 : ℚ) / 2 * ((4 : ℕ) : ℚ))).toNat + 1)) = 4 :=
  bar_width_decomposition.1 4 (1 / 2) (by norm_num) (by norm_num)
    (by norm_num [cppRound])

end Tqdm
